import Mathlib

/-!
Shallow embedding of the Bookstore-website backend
(`app/main_enhanced.py` and `test_ingestion.py`) and proofs about it.
Documents are modelled as insertion-ordered association lists of
string keys and JSON-like values, matching CPython dict semantics and
the MongoDB documents the code manipulates.
-/

namespace Bookstore

/-- Values stored in documents: the JSON-like scalars and containers that
appear in the MongoDB collections of `app/main_enhanced.py` and in the
pandas rows of `test_ingestion.py`. -/
inductive Val where
  | str (s : String)
  | num (n : Int)
  | null
  | list (l : List Val)
  | dict (d : List (String × Val))

/-- Python exceptions and FastAPI HTTPException outcomes that the translated
code can raise. -/
inductive PyErr where
  | keyError (k : String)
  | typeError
  | indexError
  | invalidId (s : String)
  | http (code : Nat) (detail : String)
  | jwtExpired
  | jwtInvalid

/-- A Python dict with string keys, keeping insertion order as CPython does. -/
abbrev Doc := List (String × Val)

/-- Lookup of a key in a dict. -/
def Doc.get? : Doc → String → Option Val
  | [], _ => none
  | (k, v) :: rest, key => if k = key then some v else Doc.get? rest key

/-- Python `key in dict`. -/
def Doc.containsKey (d : Doc) (key : String) : Bool :=
  (Doc.get? d key).isSome

/-- Python `dict.get(key, default)`. -/
def Doc.getD (d : Doc) (key : String) (dflt : Val) : Val :=
  (Doc.get? d key).getD dflt

/-- Python `dict[key]`, raising `KeyError` when the key is absent. -/
def Doc.getItem (d : Doc) (key : String) : Except PyErr Val :=
  match Doc.get? d key with
  | some v => .ok v
  | none => .error (.keyError key)

/-- Python `dict[key] = value`: replaces the value in place when the key
exists, otherwise appends the key at the end, as CPython insertion order
does. -/
def Doc.set : Doc → String → Val → Doc
  | [], key, v => [(key, v)]
  | (k, w) :: rest, key, v =>
    if k = key then (k, v) :: rest else (k, w) :: Doc.set rest key v

/-- A MongoDB `$set` update: set every key of `upd` in order. -/
def Doc.setMany (d : Doc) (upd : Doc) : Doc :=
  upd.foldl (fun acc kv => Doc.set acc kv.1 kv.2) d

/-- Python truthiness of a value. -/
def Val.truthy : Val → Bool
  | .str s => !s.isEmpty
  | .num n => n != 0
  | .null => false
  | .list l => !l.isEmpty
  | .dict d => !d.isEmpty

/-- Python `v[0]`: first element of a list, first character of a string,
`TypeError` on non-subscriptable values. -/
def Val.subscript0 : Val → Except PyErr Val
  | .list (x :: _) => .ok x
  | .list [] => .error .indexError
  | .str s => if s.isEmpty then .error .indexError else .ok (.str (s.take 1))
  | _ => .error .typeError

/-- Python `str(v)` for the scalar values that occur in this code base; the
container renderings are placeholders, since no call site of `str` in the
translated code receives a container. -/
def pyStr : Val → String
  | .str s => s
  | .num n => toString n
  | .null => "None"
  | .list _ => "[list]"
  | .dict _ => "[dict]"

/-- Python `v != s` with a `str` on the right: a value of another type is
never equal to a string. -/
def Val.neStr : Val → String → Bool
  | .str t, s => t != s
  | _, _ => true

/-- Python `v == s` with a `str` on the right. -/
def Val.eqStr : Val → String → Bool
  | .str t, s => t == s
  | _, _ => false

/-- Python `s != v` where `s` is a `str`: equal only to an equal string. -/
def strNeVal (s : String) : Val → Bool
  | .str t => s != t
  | _ => true

/-- ASCII lower-casing of a character (the strings this code base
lower-cases are ASCII). -/
def charLower (c : Char) : Char :=
  if 'A' ≤ c && c ≤ 'Z' then Char.ofNat (c.toNat + 32) else c

/-- ASCII `str.lower()`. -/
def pyLower (s : String) : String :=
  ⟨s.data.map charLower⟩

/-- Whether the first character list starts the second. -/
def strLeads : List Char → List Char → Bool
  | [], _ => true
  | _ :: _, [] => false
  | a :: as, b :: bs => a == b && strLeads as bs

/-- Substring containment on character lists. -/
def strSub : List Char → List Char → Bool
  | needle, [] => needle.isEmpty
  | needle, h :: hs => strLeads needle (h :: hs) || strSub needle hs

/-- Python `needle in hay` on strings: substring containment. -/
def pyIn (needle hay : String) : Bool :=
  strSub needle.toList hay.toList

/-- Case-insensitive substring test, modelling the MongoDB regex match with
option `i` for the plain-text patterns this API receives (spec section 4.2
describes the search filter as a case-insensitive substring match). -/
def ciContains (pat s : String) : Bool :=
  pyIn (pyLower pat) (pyLower s)

/-- Hexadecimal digit test for ObjectId strings. -/
def isHexChar (c : Char) : Bool :=
  c.isDigit || ('a' ≤ c && c ≤ 'f') || ('A' ≤ c && c ≤ 'F')

/-- bson accepts exactly the 24-character hexadecimal strings as ObjectIds. -/
def isValidObjectId (s : String) : Bool :=
  s.length == 24 && s.toList.all isHexChar

/-- Python `ObjectId(s)`: the canonical (lower-case) id on success, bson
InvalidId otherwise; `str` of an ObjectId is its lower-case hex form. -/
def parseObjectId (s : String) : Except PyErr String :=
  if isValidObjectId s then .ok (pyLower s) else .error (.invalidId s)

/-- A MongoDB collection: documents keyed by their ObjectId hex string. -/
abbrev Store := List (String × Doc)

/-- Mongo `find_one` by `_id`: first document with the given id. -/
def findById : Store → String → Option (String × Doc)
  | [], _ => none
  | b :: rest, oid => if b.1 = oid then some b else findById rest oid

/-- Mongo `delete_one` by `_id`: removes the first document with the given id. -/
def eraseById : Store → String → Store
  | [], _ => []
  | b :: rest, oid => if b.1 = oid then rest else b :: eraseById rest oid

/-- Mongo `update_one` with `$set`: applies the update to the first document with
the given id. -/
def updateById : Store → String → Doc → Store
  | [], _, _ => []
  | b :: rest, oid, upd =>
    if b.1 = oid then (b.1, Doc.setMany b.2 upd) :: rest
    else b :: updateById rest oid upd

/-! ### Schema normalization (`get_books` lines 190-201, `get_book` lines 210-217) -/

/-- Lines 193-194 of `main_enhanced.py` (the `GET /books` list path): map the
legacy `Book Name` onto `title`, but only when a `Book Name` key exists. -/
def normTitleSearch (book : Doc) : Doc :=
  if !Doc.containsKey book "title" && Doc.containsKey book "Book Name" then
    Doc.set book "title" (Doc.getD book "Book Name" (.str "Untitled"))
  else book

/-- Lines 212-213 of `main_enhanced.py` (the `GET /books/id` path): `title`
falls back to `Book Name`, else the literal `"Untitled"`. -/
def normTitleGet (book : Doc) : Doc :=
  if !Doc.containsKey book "title" then
    Doc.set book "title" (Doc.getD book "Book Name" (.str "Untitled"))
  else book

/-- Field `author` falls back to the legacy `Publisher`, else `"Unknown"` (both
paths). -/
def normAuthor (book : Doc) : Doc :=
  if !Doc.containsKey book "author" then
    Doc.set book "author" (Doc.getD book "Publisher" (.str "Unknown"))
  else book

/-- Field `price` falls back to the legacy `Price`, else `0` (search path only). -/
def normPrice (book : Doc) : Doc :=
  if !Doc.containsKey book "price" then
    Doc.set book "price" (Doc.getD book "Price" (.num 0))
  else book

/-- Line `book["image"] = book["images"][0] if book["images"] else None`, guarded
by `"image" not in book and "images" in book` (both paths). -/
def normImage (book : Doc) : Except PyErr Doc :=
  if !Doc.containsKey book "image" && Doc.containsKey book "images" then
    match Doc.getItem book "images" with
    | .error e => .error e
    | .ok imgs =>
      match (if imgs.truthy then imgs.subscript0 else .ok .null) with
      | .error e => .error e
      | .ok img => .ok (Doc.set book "image" img)
  else .ok book

/-- The per-document normalization of the `GET /books` search path: the four
field rules in source order (title, author, price, image). -/
def normSearchDoc (book : Doc) : Except PyErr Doc :=
  normImage (normPrice (normAuthor (normTitleSearch book)))

/-- The per-document normalization of the `GET /books/id` path (title,
author, image; there is no price rule on this path). -/
def normGetDoc (book : Doc) : Except PyErr Doc :=
  normImage (normAuthor (normTitleGet book))

/-! ### Query construction and matching (`get_books` lines 157-202) -/

/-- The MongoDB filter document built by `get_books`. -/
structure BooksQuery where
  searchPat : Option String := none
  category : Option String := none
  condition : Option String := none
  priceLo : Option Int := none
  priceHi : Option Int := none

/-- Truthiness of an optional string parameter (`if search:` in Python). -/
def truthyStr : Option String → Bool
  | some s => !s.isEmpty
  | none => false

/-- The price bounds added by the `priceRange` branch of `get_books`.  The
outer `if priceRange:` truthiness guard only excludes `None` and the empty
string, which the catch-all of this match handles identically. -/
def priceBounds : Option String → Option Int × Option Int
  | some "0-20" => (some 0, some 20)
  | some "20-50" => (some 20, some 50)
  | some "50-100" => (some 50, some 100)
  | some "100+" => (some 100, none)
  | _ => (none, none)

/-- Lines 165-187 of `main_enhanced.py`: each query key is added
independently when its parameter is truthy. -/
def buildQuery (search category condition priceRange : Option String) : BooksQuery :=
  { searchPat := if truthyStr search then search else none
    category := if truthyStr category then category else none
    condition := if truthyStr condition then condition else none
    priceLo := (priceBounds priceRange).1
    priceHi := (priceBounds priceRange).2 }

/-- The string value of a document field, when it is a string. -/
def strField (d : Doc) (field : String) : Option String :=
  match Doc.get? d field with
  | some (.str s) => some s
  | _ => none

/-- The `$or` regex clause: case-insensitive match against title or author. -/
def matchesSearch (pat : Option String) (d : Doc) : Bool :=
  match pat with
  | none => true
  | some p =>
    (match strField d "title" with | some s => ciContains p s | none => false) ||
    (match strField d "author" with | some s => ciContains p s | none => false)

/-- A MongoDB string-equality clause on a field. -/
def matchesEq (want : Option String) (field : String) (d : Doc) : Bool :=
  match want with
  | none => true
  | some c => match strField d field with | some s => s == c | none => false

/-- The `$gte`/`$lte` price clause: with type bracketing, only documents
whose `price` field is numeric can match a numeric bound. -/
def matchesPrice (lo hi : Option Int) (d : Doc) : Bool :=
  match lo, hi with
  | none, none => true
  | _, _ =>
    match Doc.get? d "price" with
    | some (.num p) =>
      (match lo with | some l => decide (l ≤ p) | none => true) &&
      (match hi with | some h => decide (p ≤ h) | none => true)
    | _ => false

/-- Whether a stored document matches the filter built by `get_books`. -/
def matchesQuery (q : BooksQuery) (d : Doc) : Bool :=
  matchesSearch q.searchPat d && matchesEq q.category "category" d &&
  matchesEq q.condition "condition" d && matchesPrice q.priceLo q.priceHi d

/-- The `for book in books:` normalization loop of `get_books`: documents are
normalized in order and a raise aborts the whole request. -/
def normalizeAll : List Doc → Except PyErr (List Doc)
  | [] => .ok []
  | b :: rest =>
    match normSearchDoc b with
    | .error e => .error e
    | .ok b1 =>
      match normalizeAll rest with
      | .error e => .error e
      | .ok rest1 => .ok (b1 :: rest1)

/-- Route `GET /books` (lines 157-202): filter, limit, stringify `_id`, normalize. -/
def get_books (books : Store) (search category condition priceRange : Option String)
    (limit : Nat) : Except PyErr (List Doc) :=
  let q := buildQuery search category condition priceRange
  let found := ((books.filter fun b => matchesQuery q b.2).take limit).map
    fun b => Doc.set b.2 "_id" (.str b.1)
  normalizeAll found

/-- The body of the `try` block of `GET /books/id` (lines 206-218). -/
def get_book_body (books : Store) (book_id : String) : Except PyErr Doc :=
  match parseObjectId book_id with
  | .error e => .error e
  | .ok oid =>
    match findById books oid with
    | none => .error (.http 404 "Book not found")
    | some b => normGetDoc (Doc.set b.2 "_id" (.str b.1))

/-- Route `GET /books/id` (lines 204-220): the body runs under
`try ... except Exception`, which folds every failure, the explicit 404
included, into the same 404 response. -/
def get_book (books : Store) (book_id : String) : Except PyErr Doc :=
  match get_book_body books book_id with
  | .ok b => .ok b
  | .error _ => .error (.http 404 "Book not found")

/-! ### Authentication (`main_enhanced.py` lines 33-154) -/

/-- The fallback signing secret of line 33. -/
def SECRET_KEY : String := "your-secret-key-change-in-production"

/-- The claims carried by a token: subject id, role, expiry timestamp. -/
structure TokenPayload where
  sub : String
  role : String
  exp : Nat

/-- A signed token; the HMAC signature of the jwt collaborator is abstracted
as carrying the signing secret. -/
structure SignedToken where
  payload : TokenPayload
  sig : String

/-- Model of `jwt.encode(payload, secret, algorithm)`. -/
def jwtEncode (secret : String) (p : TokenPayload) : SignedToken :=
  ⟨p, secret⟩

/-- Model of `jwt.decode(token, secret, algorithms)` at time `now`: a wrong
signature is invalid, an elapsed expiry is expired. -/
def jwtDecode (secret : String) (now : Nat) (t : SignedToken) :
    Except PyErr TokenPayload :=
  if t.sig != secret then .error .jwtInvalid
  else if t.payload.exp ≤ now then .error .jwtExpired
  else .ok t.payload

/-- Python `timedelta(days=7)` in seconds. -/
def sevenDays : Nat := 7 * 24 * 60 * 60

/-- Function `create_token` (lines 62-68): signs subject id, role and a 7-day expiry
with the module secret. -/
def create_token (user_id role : String) (now : Nat) : SignedToken :=
  jwtEncode SECRET_KEY ⟨user_id, role, now + sevenDays⟩

/-- Function `verify_token` (lines 42-55): decode, resolve the embedded subject id in
the users collection, stringify `_id`, and return the stored user document.
Only the two jwt exceptions are caught; a malformed subject id raises
InvalidId past the handler. -/
def verify_token (users : Store) (now : Nat) (t : SignedToken) :
    Except PyErr Doc :=
  match jwtDecode SECRET_KEY now t with
  | .error .jwtExpired => .error (.http 401 "Token expired")
  | .error .jwtInvalid => .error (.http 401 "Invalid token")
  | .error e => .error e
  | .ok payload =>
    match parseObjectId payload.sub with
    | .error e => .error e
    | .ok oid =>
      match findById users oid with
      | none => .error (.http 401 "User not found")
      | some u => .ok (Doc.set u.2 "_id" (.str u.1))

/-- Model of `bcrypt.hashpw` with a fixed salt: an injective one-way
collaborator whose output only `bcrypt.checkpw` interprets. -/
def bcryptHash (password : String) : String :=
  "bcrypt-" ++ password

/-- Model of `bcrypt.checkpw`. -/
def bcryptCheck (password stored : String) : Bool :=
  stored == bcryptHash password

/-- Mongo `find_one` on the users collection by email. -/
def findByEmail : Store → String → Option (String × Doc)
  | [], _ => none
  | u :: rest, email =>
    match Doc.get? u.2 "email" with
    | some (.str s) => if s = email then some u else findByEmail rest email
    | _ => findByEmail rest email

/-- Route `POST /auth/register` (lines 87-127): duplicate-email and role checks,
then a new user document is inserted (receiving the fresh id `freshId`), and
a token plus public user view are returned. -/
def register (users : Store) (freshId : String)
    (name email password role : String) (now : Nat) :
    Except PyErr (Store × SignedToken × Doc) :=
  if (findByEmail users email).isSome then
    .error (.http 400 "Email already registered")
  else if role != "user" && role != "admin" then
    .error (.http 400 "Invalid role")
  else
    let userDoc : Doc :=
      [("name", .str name), ("email", .str email),
       ("password", .str (bcryptHash password)), ("role", .str role),
       ("created_at", .num now)]
    .ok (users ++ [(freshId, userDoc)], create_token freshId role now,
      [("id", .str freshId), ("name", .str name), ("email", .str email),
       ("role", .str role)])

/-- Route `POST /auth/login` (lines 129-154): credential check, then
`user.get("role") != role` rejection, then a token signed with the stored
role and the public user view. -/
def login (users : Store) (email password role : String) (now : Nat) :
    Except PyErr (SignedToken × Doc) :=
  match findByEmail users email with
  | none => .error (.http 401 "Invalid credentials")
  | some u =>
    match Doc.getItem u.2 "password" with
    | .error e => .error e
    | .ok (.str pws) =>
      if !bcryptCheck password pws then .error (.http 401 "Invalid credentials")
      else if (Doc.getD u.2 "role" .null).neStr role then
        .error (.http 403 "Invalid role for this account")
      else
        match Doc.getItem u.2 "role", Doc.getItem u.2 "name",
            Doc.getItem u.2 "email" with
        | .ok roleV, .ok nameV, .ok emailV =>
          .ok (create_token u.1 (pyStr roleV) now,
            [("id", .str u.1), ("name", nameV), ("email", emailV),
             ("role", roleV)])
        | .error e, _, _ => .error e
        | _, .error e, _ => .error e
        | _, _, .error e => .error e
    | .ok _ => .error PyErr.typeError

/-! ### Listing mutation (`main_enhanced.py` lines 222-321) -/

/-- Value `None` for an absent optional form field, the string otherwise. -/
def optVal : Option String → Val
  | some s => .str s
  | none => .null

/-- The ownership/role check shared verbatim by `update_book` (line 280) and
`delete_book` (line 317):
`if current_user["role"] != "admin" and str(book.get("sellerId")) != current_user["id"]`.
The `and` short-circuits, so `current_user["id"]` is only read for
non-admin callers. -/
def checkOwnership (book current_user : Doc) : Except PyErr Unit := do
  let roleV ← Doc.getItem current_user "role"
  if roleV.neStr "admin" then
    let idV ← Doc.getItem current_user "id"
    if strNeVal (pyStr (Doc.getD book "sellerId" .null)) idV then
      throw (.http 403 "Not authorized")

/-- Route `POST /books/upload` (lines 222-260): builds the listing document (the
seller fields read `current_user["id"]`, `["email"]`, `["name"]` in that
order), inserts it, and returns it with its stringified id.  The saved
image file is abstracted as its resulting url. -/
def upload_book (books : Store) (freshId : String) (title author : String)
    (price : Int) (category condition : String)
    (description isbn image_url : Option String) (current_user : Doc)
    (now : Nat) : Except PyErr (Store × Doc) := do
  let sellerId ← Doc.getItem current_user "id"
  let sellerEmail ← Doc.getItem current_user "email"
  let sellerName ← Doc.getItem current_user "name"
  let book : Doc :=
    [("title", .str title), ("author", .str author), ("price", .num price),
     ("category", .str category), ("condition", .str condition),
     ("description", optVal description), ("isbn", optVal isbn),
     ("image", optVal image_url), ("sellerId", sellerId),
     ("sellerEmail", sellerEmail), ("sellerName", sellerName),
     ("status", .str "active"), ("created_at", .num now)]
  pure (books ++ [(freshId, book)], Doc.set book "_id" (.str freshId))

/-- The `update_data` dict of `update_book` (lines 283-303): every string
field is applied only when truthy (the empty string is skipped), `price`
whenever not `None`, and the image when an upload is present. -/
def updateData (title author : Option String) (price : Option Int)
    (category condition description status_field image_url : Option String) :
    Doc :=
  let u : Doc := []
  let u := match title with
    | some t => if !t.isEmpty then Doc.set u "title" (.str t) else u
    | none => u
  let u := match author with
    | some t => if !t.isEmpty then Doc.set u "author" (.str t) else u
    | none => u
  let u := match price with
    | some p => Doc.set u "price" (.num p)
    | none => u
  let u := match category with
    | some t => if !t.isEmpty then Doc.set u "category" (.str t) else u
    | none => u
  let u := match condition with
    | some t => if !t.isEmpty then Doc.set u "condition" (.str t) else u
    | none => u
  let u := match description with
    | some t => if !t.isEmpty then Doc.set u "description" (.str t) else u
    | none => u
  let u := match status_field with
    | some t => if !t.isEmpty then Doc.set u "status" (.str t) else u
    | none => u
  match image_url with
  | some s => Doc.set u "image" (.str s)
  | none => u

/-- Route `PUT /books/id` (lines 262-308): find, authorize, `$set` the provided
fields, re-fetch and return the updated document. -/
def update_book (books : Store) (book_id : String)
    (title author : Option String) (price : Option Int)
    (category condition description status_field image_url : Option String)
    (current_user : Doc) : Except PyErr (Store × Doc) := do
  let oid ← parseObjectId book_id
  match findById books oid with
  | none => throw (.http 404 "Book not found")
  | some b => do
    checkOwnership b.2 current_user
    let upd := updateData title author price category condition description
      status_field image_url
    let books2 := updateById books oid upd
    match findById books2 oid with
    | none => throw .typeError
    | some b2 => pure (books2, Doc.set b2.2 "_id" (.str b2.1))

/-- Route `DELETE /books/id` (lines 310-321): find, authorize, delete, confirm. -/
def delete_book (books : Store) (book_id : String) (current_user : Doc) :
    Except PyErr (Store × String) := do
  let oid ← parseObjectId book_id
  match findById books oid with
  | none => throw (.http 404 "Book not found")
  | some b => do
    checkOwnership b.2 current_user
    pure (eraseById books oid, "Book deleted successfully")

/-! ### Ingestion (`test_ingestion.py`) -/

/-- Line 17 of the ingestion script: the title cell, either naming of the
column, stringified, defaulting to the literal No Title. -/
def ingestTitle (row : Doc) : String :=
  pyStr (Doc.getD row "Book Name" (Doc.getD row "Book_Name" (.str "No Title")))

/-- Lines 20-23 of `test_ingestion.py`: the Board cell defaults to
`"General"` when the column is absent; the keyword derivation runs only when
the cell equals the blank sentinel `"N/A"`, and keeps the sentinel when no
keyword matches. -/
def ingestBoard (row : Doc) (book_title : String) : Val :=
  let board := Doc.getD row "Board" (.str "General")
  if board.eqStr "N/A" then
    if pyIn "Sindh" book_title then .str "Sindh Board"
    else if pyIn "Punjab" book_title then .str "Punjab Board"
    else board
  else board

/-- Line 35 of the ingestion script: the School cell stringified,
lower-cased, trimmed and space-to-hyphen normalized. -/
def schoolTag (row : Doc) : String :=
  ((pyLower (pyStr (Doc.getD row "School" (.str "General")))).trim).replace
    " " "-"

/-- Lines 25-40 of `test_ingestion.py`: the document built from one row
(cells are the pandas row values after `fillna("N/A")`). -/
def ingestRow (row : Doc) (source_name : String) (now : Nat) : Doc :=
  let book_title := ingestTitle row
  let board := ingestBoard row book_title
  [("category_type", .str "coursebook"),
   ("sub_category_type", Doc.getD row "Sub Category" (.str "General")),
   ("publisher", Doc.getD row "Publisher" (.str "Unknown")),
   ("board", board),
   ("title", .str book_title),
   ("price", Doc.getD row "Price" (.num 0)),
   ("sku", Doc.getD row "SKU" (.str "N/A")),
   ("images", .list [Doc.getD row "Image URL" (Doc.getD row "Image_URL" (.str ""))]),
   ("attributes", .dict
     [("school_tags", .list [.str (schoolTag row)]),
      ("class", Doc.getD row "Class" (.str "General"))]),
   ("source", .str source_name),
   ("last_updated", .num now)]

/-- One batch of `run_full_ingestion` (lines 9-48): the whole body runs
under `try ... except Exception`, which reports the error and falls
through, so a failing read leaves the store unchanged and returns
normally.  The external `pd.read_excel(...).fillna("N/A")` is abstracted as
its result, `readResult`. -/
def run_full_ingestion (readResult : Except PyErr (List Doc))
    (source_name : String) (now : Nat) (store : List Doc) :
    Except PyErr (List Doc) :=
  match (do
      let rows ← readResult
      pure (rows.map fun r => ingestRow r source_name now) :
      Except PyErr (List Doc)) with
  | .ok records => .ok (store ++ records)
  | .error _ => .ok store

/-- The module-level calls of lines 52-54: each source batch is processed in
sequence against the shared collection. -/
def runAllIngestion : List (Except PyErr (List Doc) × String) → Nat →
    List Doc → Except PyErr (List Doc)
  | [], _, store => .ok store
  | (readResult, src) :: rest, now, store => do
    let store2 ← run_full_ingestion readResult src now store
    runAllIngestion rest now store2

/-! ### Concrete data used in witnesses and counterexamples -/

/-- A canonical-schema document, used to witness the no-op clause of the
idempotence theorem. -/
def canonicalDoc : Doc :=
  [("title", .str "Algebra I"), ("author", .str "XYZ Press"),
   ("price", .num 15), ("image", .str "http://x/1.png")]

/-- The legacy-schema document of the spec example (section 8). -/
def legacyDoc : Doc :=
  [("Book Name", .str "Algebra I"), ("Publisher", .str "XYZ Press"),
   ("Price", .num 15), ("images", .list [.str "http://x/1.png"])]

/-- The search-path normalization of `legacyDoc`. -/
def legacyDocSearch : Doc :=
  [("Book Name", .str "Algebra I"), ("Publisher", .str "XYZ Press"),
   ("Price", .num 15), ("images", .list [.str "http://x/1.png"]),
   ("title", .str "Algebra I"), ("author", .str "XYZ Press"),
   ("price", .num 15), ("image", .str "http://x/1.png")]

/-- The getById-path normalization of `legacyDoc`. -/
def legacyDocGet : Doc :=
  [("Book Name", .str "Algebra I"), ("Publisher", .str "XYZ Press"),
   ("Price", .num 15), ("images", .list [.str "http://x/1.png"]),
   ("title", .str "Algebra I"), ("author", .str "XYZ Press"),
   ("image", .str "http://x/1.png")]

/-- A registered non-admin user document, as stored by `register`. -/
def ownerUserDoc : Doc :=
  [("name", .str "Owner"), ("email", .str "owner@example.com"),
   ("password", .str (bcryptHash "pw1")), ("role", .str "user"),
   ("created_at", .num 0)]

/-- A registered admin user document, as stored by `register`. -/
def adminUserDoc : Doc :=
  [("name", .str "Root"), ("email", .str "root@example.com"),
   ("password", .str (bcryptHash "pw2")), ("role", .str "admin"),
   ("created_at", .num 0)]

/-- A users collection holding the owner and an admin. -/
def seedUsers : Store :=
  [("aaaaaaaaaaaaaaaaaaaaaaaa", ownerUserDoc),
   ("cccccccccccccccccccccccc", adminUserDoc)]

/-- A books collection holding one listing owned by the owner user. -/
def seedBooks : Store :=
  [("bbbbbbbbbbbbbbbbbbbbbbbb",
    [("title", .str "Algebra"), ("price", .num 10),
     ("sellerId", .str "aaaaaaaaaaaaaaaaaaaaaaaa"),
     ("status", .str "active")])]

/-- The identity `verify_token` produces for the owner user. -/
def ownerIdent : Doc :=
  Doc.set ownerUserDoc "_id" (.str "aaaaaaaaaaaaaaaaaaaaaaaa")

/-- The identity `verify_token` produces for the admin user. -/
def adminIdent : Doc :=
  Doc.set adminUserDoc "_id" (.str "cccccccccccccccccccccccc")

/-- A books collection with a single listing priced at 30. -/
def priceBooks : Store :=
  [("ffffffffffffffffffffffff", [("price", .num 30), ("title", .str "B")])]

/-- The normalized search result for the single listing of `priceBooks`. -/
def priceResultDoc : Doc :=
  [("price", .num 30), ("title", .str "B"),
   ("_id", .str "ffffffffffffffffffffffff"), ("author", .str "Unknown")]

/-- The users collection produced by registering one user in an empty
store, receiving the fresh id used in the round-trip witness. -/
def regUsers : Store :=
  [("abababababababababababab",
    [("name", .str "N"), ("email", .str "n@x.com"),
     ("password", .str (bcryptHash "pw")), ("role", .str "user"),
     ("created_at", .num 0)])]

/-- The public user view returned by that registration. -/
def regView : Doc :=
  [("id", .str "abababababababababababab"), ("name", .str "N"),
   ("email", .str "n@x.com"), ("role", .str "user")]

/-! ### Dictionary lemmas -/

theorem Doc.get?_set_self (d : Doc) (k : String) (v : Val) :
    Doc.get? (Doc.set d k v) k = some v := by
  induction d with
  | nil => simp [Doc.set, Doc.get?]
  | cons hd tl ih =>
    obtain ⟨a, b⟩ := hd
    by_cases h : a = k
    · simp [Doc.set, h, Doc.get?]
    · simp [Doc.set, h, Doc.get?, ih]

theorem Doc.get?_set_ne (d : Doc) (k k1 : String) (v : Val) (h : k1 ≠ k) :
    Doc.get? (Doc.set d k v) k1 = Doc.get? d k1 := by
  induction d with
  | nil => simp [Doc.set, Doc.get?, Ne.symm h]
  | cons hd tl ih =>
    obtain ⟨a, b⟩ := hd
    by_cases h2 : a = k
    · subst h2
      simp [Doc.set, Doc.get?, Ne.symm h]
    · by_cases h3 : a = k1 <;> simp [Doc.set, h2, Doc.get?, h3, ih, h]

theorem Doc.containsKey_set_self (d : Doc) (k : String) (v : Val) :
    Doc.containsKey (Doc.set d k v) k = true := by
  simp [Doc.containsKey, Doc.get?_set_self]

theorem Doc.containsKey_set_ne (d : Doc) (k k1 : String) (v : Val)
    (h : k1 ≠ k) :
    Doc.containsKey (Doc.set d k v) k1 = Doc.containsKey d k1 := by
  simp [Doc.containsKey, Doc.get?_set_ne _ _ _ _ h]

theorem Doc.getD_of_get? (d : Doc) (k : String) (dflt v : Val)
    (h : Doc.get? d k = some v) : Doc.getD d k dflt = v := by
  simp [Doc.getD, h]

theorem Doc.containsKey_false_get? (d : Doc) (k : String)
    (h : Doc.containsKey d k = false) : Doc.get? d k = none := by
  simpa [Doc.containsKey, Option.isSome_iff_exists] using h

theorem Doc.containsKey_true_get? (d : Doc) (k : String)
    (h : Doc.containsKey d k = true) : ∃ v, Doc.get? d k = some v := by
  simpa [Doc.containsKey, Option.isSome_iff_exists] using h

/-! ### Normalizer step lemmas -/

theorem normTitleSearch_get?_ne (b : Doc) (k : String) (h : k ≠ "title") :
    Doc.get? (normTitleSearch b) k = Doc.get? b k := by
  unfold normTitleSearch
  split
  · exact Doc.get?_set_ne _ _ _ _ h
  · rfl

theorem normTitleGet_get?_ne (b : Doc) (k : String) (h : k ≠ "title") :
    Doc.get? (normTitleGet b) k = Doc.get? b k := by
  unfold normTitleGet
  split
  · exact Doc.get?_set_ne _ _ _ _ h
  · rfl

theorem normAuthor_get?_ne (b : Doc) (k : String) (h : k ≠ "author") :
    Doc.get? (normAuthor b) k = Doc.get? b k := by
  unfold normAuthor
  split
  · exact Doc.get?_set_ne _ _ _ _ h
  · rfl

theorem normPrice_get?_ne (b : Doc) (k : String) (h : k ≠ "price") :
    Doc.get? (normPrice b) k = Doc.get? b k := by
  unfold normPrice
  split
  · exact Doc.get?_set_ne _ _ _ _ h
  · rfl

theorem normTitleSearch_containsKey_ne (b : Doc) (k : String)
    (h : k ≠ "title") :
    Doc.containsKey (normTitleSearch b) k = Doc.containsKey b k := by
  simp [Doc.containsKey, normTitleSearch_get?_ne _ _ h]

theorem normTitleGet_containsKey_ne (b : Doc) (k : String) (h : k ≠ "title") :
    Doc.containsKey (normTitleGet b) k = Doc.containsKey b k := by
  simp [Doc.containsKey, normTitleGet_get?_ne _ _ h]

theorem normAuthor_containsKey_ne (b : Doc) (k : String) (h : k ≠ "author") :
    Doc.containsKey (normAuthor b) k = Doc.containsKey b k := by
  simp [Doc.containsKey, normAuthor_get?_ne _ _ h]

theorem normPrice_containsKey_ne (b : Doc) (k : String) (h : k ≠ "price") :
    Doc.containsKey (normPrice b) k = Doc.containsKey b k := by
  simp [Doc.containsKey, normPrice_get?_ne _ _ h]

theorem normAuthor_containsKey (b : Doc) :
    Doc.containsKey (normAuthor b) "author" = true := by
  unfold normAuthor
  split
  · exact Doc.containsKey_set_self _ _ _
  · rename_i h
    simpa using h

theorem normPrice_containsKey (b : Doc) :
    Doc.containsKey (normPrice b) "price" = true := by
  unfold normPrice
  split
  · exact Doc.containsKey_set_self _ _ _
  · rename_i h
    simpa using h

theorem normTitleGet_containsKey (b : Doc) :
    Doc.containsKey (normTitleGet b) "title" = true := by
  unfold normTitleGet
  split
  · exact Doc.containsKey_set_self _ _ _
  · rename_i h
    simpa using h

theorem normTitleSearch_stable (b : Doc) :
    Doc.containsKey (normTitleSearch b) "title" = true ∨
    Doc.containsKey (normTitleSearch b) "Book Name" = false := by
  unfold normTitleSearch
  split
  · exact Or.inl (Doc.containsKey_set_self _ _ _)
  · rename_i h
    by_cases ht : Doc.containsKey b "title" = true
    · exact Or.inl ht
    · right
      by_cases hb : Doc.containsKey b "Book Name" = false
      · exact hb
      · exfalso
        apply h
        simp only [Bool.not_eq_true] at ht
        simp only [Bool.not_eq_false] at hb
        simp [ht, hb]

theorem normTitleSearch_eq_self (b : Doc)
    (h : Doc.containsKey b "title" = true ∨
      Doc.containsKey b "Book Name" = false) :
    normTitleSearch b = b := by
  unfold normTitleSearch
  rcases h with h | h <;> simp [h]

theorem normTitleGet_eq_self (b : Doc)
    (h : Doc.containsKey b "title" = true) : normTitleGet b = b := by
  unfold normTitleGet
  simp [h]

theorem normAuthor_eq_self (b : Doc)
    (h : Doc.containsKey b "author" = true) : normAuthor b = b := by
  unfold normAuthor
  simp [h]

theorem normPrice_eq_self (b : Doc)
    (h : Doc.containsKey b "price" = true) : normPrice b = b := by
  unfold normPrice
  simp [h]

theorem normImage_ok_get?_ne (b d : Doc) (k : String)
    (h : normImage b = .ok d) (hk : k ≠ "image") :
    Doc.get? d k = Doc.get? b k := by
  unfold normImage at h
  split at h
  · rename_i hg
    rcases Bool.and_eq_true_iff.mp hg with ⟨_, hc⟩
    obtain ⟨imgs, himgs⟩ := Doc.containsKey_true_get? b "images" hc
    have hget : Doc.getItem b "images" = .ok imgs := by
      simp [Doc.getItem, himgs]
    rw [hget] at h
    split at h
    · exact Except.noConfusion h
    · rename_i img heq
      split at h
      · exact Except.noConfusion h
      · simp only [Except.ok.injEq] at h
        subst h
        exact Doc.get?_set_ne _ _ _ _ hk
  · simp only [Except.ok.injEq] at h
    subst h
    rfl

theorem normImage_ok_stable (b d : Doc) (h : normImage b = .ok d) :
    Doc.containsKey d "image" = true ∨ Doc.containsKey d "images" = false := by
  unfold normImage at h
  split at h
  · rename_i hg
    rcases Bool.and_eq_true_iff.mp hg with ⟨_, hc⟩
    obtain ⟨imgs, himgs⟩ := Doc.containsKey_true_get? b "images" hc
    have hget : Doc.getItem b "images" = .ok imgs := by
      simp [Doc.getItem, himgs]
    rw [hget] at h
    split at h
    · exact Except.noConfusion h
    · rename_i img heq
      split at h
      · exact Except.noConfusion h
      · simp only [Except.ok.injEq] at h
        subst h
        exact Or.inl (Doc.containsKey_set_self _ _ _)
  · simp only [Except.ok.injEq] at h
    subst h
    rename_i hg
    by_cases hi : Doc.containsKey b "image" = true
    · exact Or.inl hi
    · right
      by_cases hs : Doc.containsKey b "images" = false
      · exact hs
      · exfalso
        apply hg
        simp only [Bool.not_eq_true] at hi
        simp only [Bool.not_eq_false] at hs
        simp [hi, hs]

theorem normImage_ok_of_stable (b : Doc)
    (h : Doc.containsKey b "image" = true ∨
      Doc.containsKey b "images" = false) :
    normImage b = .ok b := by
  unfold normImage
  rcases h with h | h <;> simp [h]

theorem normImage_ok_containsKey_ne (b d : Doc) (k : String)
    (h : normImage b = .ok d) (hk : k ≠ "image") :
    Doc.containsKey d k = Doc.containsKey b k := by
  simp [Doc.containsKey, normImage_ok_get?_ne b d k h hk]

/-- A successful output of the search-path normalizer is a fixed point. -/
theorem normSearchDoc_fix (b d : Doc) (h : normSearchDoc b = .ok d) :
    normSearchDoc d = .ok d := by
  unfold normSearchDoc at h ⊢
  have hA3 : Doc.containsKey (normPrice (normAuthor (normTitleSearch b)))
      "author" = true := by
    rw [normPrice_containsKey_ne _ _ (by decide)]
    exact normAuthor_containsKey _
  have hP3 : Doc.containsKey (normPrice (normAuthor (normTitleSearch b)))
      "price" = true := normPrice_containsKey _
  have hT3 : Doc.containsKey (normPrice (normAuthor (normTitleSearch b)))
      "title" = true ∨
      Doc.containsKey (normPrice (normAuthor (normTitleSearch b)))
      "Book Name" = false := by
    rcases normTitleSearch_stable b with h1 | h1
    · left
      rw [normPrice_containsKey_ne _ _ (by decide),
        normAuthor_containsKey_ne _ _ (by decide)]
      exact h1
    · right
      rw [normPrice_containsKey_ne _ _ (by decide),
        normAuthor_containsKey_ne _ _ (by decide)]
      exact h1
  have hAd : Doc.containsKey d "author" = true := by
    rw [normImage_ok_containsKey_ne _ _ _ h (by decide)]
    exact hA3
  have hPd : Doc.containsKey d "price" = true := by
    rw [normImage_ok_containsKey_ne _ _ _ h (by decide)]
    exact hP3
  have hTd : Doc.containsKey d "title" = true ∨
      Doc.containsKey d "Book Name" = false := by
    rcases hT3 with h1 | h1
    · left
      rw [normImage_ok_containsKey_ne _ _ _ h (by decide)]
      exact h1
    · right
      rw [normImage_ok_containsKey_ne _ _ _ h (by decide)]
      exact h1
  rw [normTitleSearch_eq_self d hTd, normAuthor_eq_self d hAd,
    normPrice_eq_self d hPd]
  exact normImage_ok_of_stable d (normImage_ok_stable _ d h)

/-- A successful output of the getById-path normalizer is a fixed point. -/
theorem normGetDoc_fix (b d : Doc) (h : normGetDoc b = .ok d) :
    normGetDoc d = .ok d := by
  unfold normGetDoc at h ⊢
  have hA2 : Doc.containsKey (normAuthor (normTitleGet b)) "author" = true :=
    normAuthor_containsKey _
  have hT2 : Doc.containsKey (normAuthor (normTitleGet b)) "title" = true := by
    rw [normAuthor_containsKey_ne _ _ (by decide)]
    exact normTitleGet_containsKey _
  have hAd : Doc.containsKey d "author" = true := by
    rw [normImage_ok_containsKey_ne _ _ _ h (by decide)]
    exact hA2
  have hTd : Doc.containsKey d "title" = true := by
    rw [normImage_ok_containsKey_ne _ _ _ h (by decide)]
    exact hT2
  rw [normTitleGet_eq_self d hTd, normAuthor_eq_self d hAd]
  exact normImage_ok_of_stable d (normImage_ok_stable _ d h)

/-- C4: the schema normalizer is idempotent on both read paths: applying the
normalization pass twice yields the same result as applying it once, and on
an already-canonical document (title, author, price and image present) one
pass changes nothing. -/
theorem normalize_idempotent :
    (∀ b : Doc, normSearchDoc b >>= normSearchDoc = normSearchDoc b) ∧
    (∀ b : Doc, normGetDoc b >>= normGetDoc = normGetDoc b) ∧
    (∀ b : Doc, Doc.containsKey b "title" = true →
      Doc.containsKey b "author" = true →
      Doc.containsKey b "price" = true →
      Doc.containsKey b "image" = true →
      normSearchDoc b = .ok b ∧ normGetDoc b = .ok b) := by
  refine ⟨?_, ?_, ?_⟩
  · intro b
    cases h : normSearchDoc b with
    | error e => rfl
    | ok d => exact normSearchDoc_fix b d h
  · intro b
    cases h : normGetDoc b with
    | error e => rfl
    | ok d => exact normGetDoc_fix b d h
  · intro b ht ha hp hi
    constructor
    · unfold normSearchDoc
      rw [normTitleSearch_eq_self b (Or.inl ht), normAuthor_eq_self b ha,
        normPrice_eq_self b hp]
      exact normImage_ok_of_stable b (Or.inl hi)
    · unfold normGetDoc
      rw [normTitleGet_eq_self b ht, normAuthor_eq_self b ha]
      exact normImage_ok_of_stable b (Or.inl hi)

theorem Doc.getD_of_none (d : Doc) (k : String) (dflt : Val)
    (h : Doc.get? d k = none) : Doc.getD d k dflt = dflt := by
  simp [Doc.getD, h]

theorem normTitleSearch_set (d : Doc)
    (h1 : Doc.containsKey d "title" = false)
    (h2 : Doc.containsKey d "Book Name" = true) :
    normTitleSearch d =
      Doc.set d "title" (Doc.getD d "Book Name" (.str "Untitled")) := by
  unfold normTitleSearch
  simp [h1, h2]

theorem normTitleGet_set (d : Doc) (h1 : Doc.containsKey d "title" = false) :
    normTitleGet d =
      Doc.set d "title" (Doc.getD d "Book Name" (.str "Untitled")) := by
  unfold normTitleGet
  simp [h1]

theorem normAuthor_set (d : Doc) (h : Doc.containsKey d "author" = false) :
    normAuthor d =
      Doc.set d "author" (Doc.getD d "Publisher" (.str "Unknown")) := by
  unfold normAuthor
  simp [h]

theorem normPrice_set (d : Doc) (h : Doc.containsKey d "price" = false) :
    normPrice d = Doc.set d "price" (Doc.getD d "Price" (.num 0)) := by
  unfold normPrice
  simp [h]

/-- The behaviour of the shared image rule on a document it succeeds on. -/
theorem normImage_rules (b d2 : Doc) (h : normImage b = .ok d2) :
    (Doc.containsKey b "image" = true →
      Doc.get? d2 "image" = Doc.get? b "image") ∧
    (Doc.containsKey b "images" = false →
      Doc.containsKey d2 "image" = Doc.containsKey b "image") ∧
    (∀ x l, Doc.containsKey b "image" = false →
      Doc.get? b "images" = some (.list (x :: l)) →
      Doc.get? d2 "image" = some x) ∧
    (Doc.containsKey b "image" = false →
      Doc.get? b "images" = some (.list []) →
      Doc.get? d2 "image" = some Val.null) := by
  refine ⟨?_, ?_, ?_, ?_⟩
  · intro hi
    have hb : normImage b = .ok b := normImage_ok_of_stable b (Or.inl hi)
    rw [hb] at h
    simp only [Except.ok.injEq] at h
    subst h
    rfl
  · intro hims
    have hb : normImage b = .ok b := normImage_ok_of_stable b (Or.inr hims)
    rw [hb] at h
    simp only [Except.ok.injEq] at h
    subst h
    rfl
  · intro x l hi himgs
    have hnone : Doc.get? b "image" = none :=
      Doc.containsKey_false_get? b "image" hi
    have hb : normImage b = .ok (Doc.set b "image" x) := by
      unfold normImage
      simp [Doc.containsKey, hnone, himgs, Doc.getItem, Val.truthy,
        Val.subscript0]
    rw [hb] at h
    simp only [Except.ok.injEq] at h
    subst h
    exact Doc.get?_set_self _ _ _
  · intro hi himgs
    have hnone : Doc.get? b "image" = none :=
      Doc.containsKey_false_get? b "image" hi
    have hb : normImage b = .ok (Doc.set b "image" Val.null) := by
      unfold normImage
      simp [Doc.containsKey, hnone, himgs, Doc.getItem, Val.truthy]
    rw [hb] at h
    simp only [Except.ok.injEq] at h
    subst h
    exact Doc.get?_set_self _ _ _

/-- Witness for C4 at a concrete canonical document. -/
theorem normalize_idempotent_witness :
    normSearchDoc canonicalDoc = .ok canonicalDoc ∧
    normGetDoc canonicalDoc = .ok canonicalDoc :=
  normalize_idempotent.2.2 canonicalDoc rfl rfl rfl rfl

/-- C3 (counterexample): on a document lacking both `title` and the legacy
`Book Name`, the search path leaves `title` absent instead of defaulting it
to the literal `"Untitled"`, and the getById path has no price rule at all,
leaving `price` absent instead of defaulting it to `0`; so the claimed
rules do not hold uniformly on both read paths. -/
theorem normalize_counterexample :
    normSearchDoc [] =
      .ok [("author", Val.str "Unknown"), ("price", Val.num 0)] ∧
    Doc.containsKey [("author", Val.str "Unknown"), ("price", Val.num 0)]
      "title" = false ∧
    normGetDoc [] =
      .ok [("title", Val.str "Untitled"), ("author", Val.str "Unknown")] ∧
    Doc.containsKey [("title", Val.str "Untitled"),
      ("author", Val.str "Unknown")] "price" = false :=
  ⟨rfl, rfl, rfl, rfl⟩

/-- C3 (amended): the exact field rules of the two read paths, for any
stored document on which normalization succeeds.  Search path: `title` is
taken from the legacy `Book Name` only when that key is present (otherwise
it stays absent); `author` falls back to `Publisher` else `"Unknown"`;
`price` falls back to `Price` else `0`.  getById path: `title` falls back
to `Book Name` else `"Untitled"`; `author` as above; `price` is never
touched.  On both paths `image` becomes the first element of a present
non-empty `images` list, `None` when the list is present but empty, and
stays absent when `images` is absent; every already-present canonical field
is left unchanged. -/
theorem normalize_field_rules (d d1 e1 : Doc)
    (hs : normSearchDoc d = .ok d1) (hg : normGetDoc d = .ok e1) :
    (Doc.containsKey d "title" = true →
      Doc.get? d1 "title" = Doc.get? d "title" ∧
      Doc.get? e1 "title" = Doc.get? d "title") ∧
    (Doc.containsKey d "title" = false →
      Doc.containsKey d "Book Name" = true →
      Doc.get? d1 "title" = Doc.get? d "Book Name" ∧
      Doc.get? e1 "title" = Doc.get? d "Book Name") ∧
    (Doc.containsKey d "title" = false →
      Doc.containsKey d "Book Name" = false →
      Doc.containsKey d1 "title" = false ∧
      Doc.get? e1 "title" = some (.str "Untitled")) ∧
    (Doc.containsKey d "author" = true →
      Doc.get? d1 "author" = Doc.get? d "author" ∧
      Doc.get? e1 "author" = Doc.get? d "author") ∧
    (Doc.containsKey d "author" = false →
      Doc.get? d1 "author" = some (Doc.getD d "Publisher" (.str "Unknown")) ∧
      Doc.get? e1 "author" = some (Doc.getD d "Publisher" (.str "Unknown"))) ∧
    (Doc.containsKey d "price" = true →
      Doc.get? d1 "price" = Doc.get? d "price") ∧
    (Doc.containsKey d "price" = false →
      Doc.get? d1 "price" = some (Doc.getD d "Price" (.num 0))) ∧
    Doc.get? e1 "price" = Doc.get? d "price" ∧
    (Doc.containsKey d "image" = true →
      Doc.get? d1 "image" = Doc.get? d "image" ∧
      Doc.get? e1 "image" = Doc.get? d "image") ∧
    (Doc.containsKey d "images" = false →
      Doc.containsKey d1 "image" = Doc.containsKey d "image" ∧
      Doc.containsKey e1 "image" = Doc.containsKey d "image") ∧
    (∀ x l, Doc.containsKey d "image" = false →
      Doc.get? d "images" = some (.list (x :: l)) →
      Doc.get? d1 "image" = some x ∧ Doc.get? e1 "image" = some x) ∧
    (Doc.containsKey d "image" = false →
      Doc.get? d "images" = some (.list []) →
      Doc.get? d1 "image" = some Val.null ∧
      Doc.get? e1 "image" = some Val.null) := by
  unfold normSearchDoc at hs
  unfold normGetDoc at hg
  refine ⟨?_, ?_, ?_, ?_, ?_, ?_, ?_, ?_, ?_, ?_, ?_, ?_⟩
  · intro ht
    constructor
    · rw [normImage_ok_get?_ne _ _ "title" hs (by decide),
        normPrice_get?_ne _ "title" (by decide),
        normAuthor_get?_ne _ "title" (by decide),
        normTitleSearch_eq_self d (Or.inl ht)]
    · rw [normImage_ok_get?_ne _ _ "title" hg (by decide),
        normAuthor_get?_ne _ "title" (by decide),
        normTitleGet_eq_self d ht]
  · intro ht hbn
    obtain ⟨v, hv⟩ := Doc.containsKey_true_get? d "Book Name" hbn
    have hgetD : Doc.getD d "Book Name" (.str "Untitled") = v :=
      Doc.getD_of_get? d _ _ v hv
    constructor
    · rw [normImage_ok_get?_ne _ _ "title" hs (by decide),
        normPrice_get?_ne _ "title" (by decide),
        normAuthor_get?_ne _ "title" (by decide),
        normTitleSearch_set d ht hbn, Doc.get?_set_self, hgetD, hv]
    · rw [normImage_ok_get?_ne _ _ "title" hg (by decide),
        normAuthor_get?_ne _ "title" (by decide),
        normTitleGet_set d ht, Doc.get?_set_self, hgetD, hv]
  · intro ht hbn
    constructor
    · rw [normImage_ok_containsKey_ne _ _ "title" hs (by decide),
        normPrice_containsKey_ne _ "title" (by decide),
        normAuthor_containsKey_ne _ "title" (by decide),
        normTitleSearch_eq_self d (Or.inr hbn)]
      exact ht
    · have hnone : Doc.get? d "Book Name" = none :=
        Doc.containsKey_false_get? d _ hbn
      rw [normImage_ok_get?_ne _ _ "title" hg (by decide),
        normAuthor_get?_ne _ "title" (by decide),
        normTitleGet_set d ht, Doc.get?_set_self,
        Doc.getD_of_none d _ _ hnone]
  · intro ha
    have h4 : normAuthor (normTitleSearch d) = normTitleSearch d :=
      normAuthor_eq_self _ (by
        rw [normTitleSearch_containsKey_ne _ _ (by decide)]
        exact ha)
    have h4g : normAuthor (normTitleGet d) = normTitleGet d :=
      normAuthor_eq_self _ (by
        rw [normTitleGet_containsKey_ne _ _ (by decide)]
        exact ha)
    constructor
    · rw [normImage_ok_get?_ne _ _ "author" hs (by decide),
        normPrice_get?_ne _ "author" (by decide), h4,
        normTitleSearch_get?_ne _ "author" (by decide)]
    · rw [normImage_ok_get?_ne _ _ "author" hg (by decide), h4g,
        normTitleGet_get?_ne _ "author" (by decide)]
  · intro ha
    have hA : Doc.containsKey (normTitleSearch d) "author" = false := by
      rw [normTitleSearch_containsKey_ne _ _ (by decide)]
      exact ha
    have hAg : Doc.containsKey (normTitleGet d) "author" = false := by
      rw [normTitleGet_containsKey_ne _ _ (by decide)]
      exact ha
    have hPub : Doc.get? (normTitleSearch d) "Publisher" =
        Doc.get? d "Publisher" := normTitleSearch_get?_ne _ _ (by decide)
    have hPubg : Doc.get? (normTitleGet d) "Publisher" =
        Doc.get? d "Publisher" := normTitleGet_get?_ne _ _ (by decide)
    constructor
    · rw [normImage_ok_get?_ne _ _ "author" hs (by decide),
        normPrice_get?_ne _ "author" (by decide),
        normAuthor_set _ hA, Doc.get?_set_self]
      simp [Doc.getD, hPub]
    · rw [normImage_ok_get?_ne _ _ "author" hg (by decide),
        normAuthor_set _ hAg, Doc.get?_set_self]
      simp [Doc.getD, hPubg]
  · intro hp
    have h6 : normPrice (normAuthor (normTitleSearch d)) =
        normAuthor (normTitleSearch d) :=
      normPrice_eq_self _ (by
        rw [normAuthor_containsKey_ne _ _ (by decide),
          normTitleSearch_containsKey_ne _ _ (by decide)]
        exact hp)
    rw [normImage_ok_get?_ne _ _ "price" hs (by decide), h6,
      normAuthor_get?_ne _ "price" (by decide),
      normTitleSearch_get?_ne _ "price" (by decide)]
  · intro hp
    have hP : Doc.containsKey (normAuthor (normTitleSearch d)) "price" =
        false := by
      rw [normAuthor_containsKey_ne _ _ (by decide),
        normTitleSearch_containsKey_ne _ _ (by decide)]
      exact hp
    have hPr : Doc.get? (normAuthor (normTitleSearch d)) "Price" =
        Doc.get? d "Price" := by
      rw [normAuthor_get?_ne _ _ (by decide),
        normTitleSearch_get?_ne _ _ (by decide)]
    rw [normImage_ok_get?_ne _ _ "price" hs (by decide), normPrice_set _ hP,
      Doc.get?_set_self]
    simp [Doc.getD, hPr]
  · rw [normImage_ok_get?_ne _ _ "price" hg (by decide),
      normAuthor_get?_ne _ "price" (by decide),
      normTitleGet_get?_ne _ "price" (by decide)]
  · intro hi
    have hiP : Doc.containsKey (normPrice (normAuthor (normTitleSearch d)))
        "image" = true := by
      rw [normPrice_containsKey_ne _ _ (by decide),
        normAuthor_containsKey_ne _ _ (by decide),
        normTitleSearch_containsKey_ne _ _ (by decide)]
      exact hi
    have hiQ : Doc.containsKey (normAuthor (normTitleGet d)) "image" =
        true := by
      rw [normAuthor_containsKey_ne _ _ (by decide),
        normTitleGet_containsKey_ne _ _ (by decide)]
      exact hi
    constructor
    · rw [(normImage_rules _ _ hs).1 hiP,
        normPrice_get?_ne _ "image" (by decide),
        normAuthor_get?_ne _ "image" (by decide),
        normTitleSearch_get?_ne _ "image" (by decide)]
    · rw [(normImage_rules _ _ hg).1 hiQ,
        normAuthor_get?_ne _ "image" (by decide),
        normTitleGet_get?_ne _ "image" (by decide)]
  · intro hims
    have himsP : Doc.containsKey (normPrice (normAuthor (normTitleSearch d)))
        "images" = false := by
      rw [normPrice_containsKey_ne _ _ (by decide),
        normAuthor_containsKey_ne _ _ (by decide),
        normTitleSearch_containsKey_ne _ _ (by decide)]
      exact hims
    have himsQ : Doc.containsKey (normAuthor (normTitleGet d)) "images" =
        false := by
      rw [normAuthor_containsKey_ne _ _ (by decide),
        normTitleGet_containsKey_ne _ _ (by decide)]
      exact hims
    constructor
    · rw [(normImage_rules _ _ hs).2.1 himsP,
        normPrice_containsKey_ne _ "image" (by decide),
        normAuthor_containsKey_ne _ "image" (by decide),
        normTitleSearch_containsKey_ne _ "image" (by decide)]
    · rw [(normImage_rules _ _ hg).2.1 himsQ,
        normAuthor_containsKey_ne _ "image" (by decide),
        normTitleGet_containsKey_ne _ "image" (by decide)]
  · intro x l hi himgs
    have hiP : Doc.containsKey (normPrice (normAuthor (normTitleSearch d)))
        "image" = false := by
      rw [normPrice_containsKey_ne _ _ (by decide),
        normAuthor_containsKey_ne _ _ (by decide),
        normTitleSearch_containsKey_ne _ _ (by decide)]
      exact hi
    have hiQ : Doc.containsKey (normAuthor (normTitleGet d)) "image" =
        false := by
      rw [normAuthor_containsKey_ne _ _ (by decide),
        normTitleGet_containsKey_ne _ _ (by decide)]
      exact hi
    have hgP : Doc.get? (normPrice (normAuthor (normTitleSearch d)))
        "images" = some (.list (x :: l)) := by
      rw [normPrice_get?_ne _ _ (by decide),
        normAuthor_get?_ne _ _ (by decide),
        normTitleSearch_get?_ne _ _ (by decide)]
      exact himgs
    have hgQ : Doc.get? (normAuthor (normTitleGet d)) "images" =
        some (.list (x :: l)) := by
      rw [normAuthor_get?_ne _ _ (by decide),
        normTitleGet_get?_ne _ _ (by decide)]
      exact himgs
    exact ⟨(normImage_rules _ _ hs).2.2.1 x l hiP hgP,
      (normImage_rules _ _ hg).2.2.1 x l hiQ hgQ⟩
  · intro hi himgs
    have hiP : Doc.containsKey (normPrice (normAuthor (normTitleSearch d)))
        "image" = false := by
      rw [normPrice_containsKey_ne _ _ (by decide),
        normAuthor_containsKey_ne _ _ (by decide),
        normTitleSearch_containsKey_ne _ _ (by decide)]
      exact hi
    have hiQ : Doc.containsKey (normAuthor (normTitleGet d)) "image" =
        false := by
      rw [normAuthor_containsKey_ne _ _ (by decide),
        normTitleGet_containsKey_ne _ _ (by decide)]
      exact hi
    have hgP : Doc.get? (normPrice (normAuthor (normTitleSearch d)))
        "images" = some (.list []) := by
      rw [normPrice_get?_ne _ _ (by decide),
        normAuthor_get?_ne _ _ (by decide),
        normTitleSearch_get?_ne _ _ (by decide)]
      exact himgs
    have hgQ : Doc.get? (normAuthor (normTitleGet d)) "images" =
        some (.list []) := by
      rw [normAuthor_get?_ne _ _ (by decide),
        normTitleGet_get?_ne _ _ (by decide)]
      exact himgs
    exact ⟨(normImage_rules _ _ hs).2.2.2 hiP hgP,
      (normImage_rules _ _ hg).2.2.2 hiQ hgQ⟩

/-- Witness for C3 (amended) at the spec example document. -/
theorem normalize_field_rules_witness :
    Doc.get? legacyDocSearch "title" = some (.str "Algebra I") ∧
    Doc.get? legacyDocGet "title" = some (.str "Algebra I") ∧
    Doc.get? legacyDocSearch "price" = some (.num 15) ∧
    Doc.get? legacyDocGet "price" = none ∧
    Doc.get? legacyDocSearch "image" = some (.str "http://x/1.png") := by
  have h := normalize_field_rules legacyDoc legacyDocSearch legacyDocGet
    rfl rfl
  refine ⟨?_, ?_, ?_, ?_, ?_⟩
  · exact (h.2.1 rfl rfl).1
  · exact (h.2.1 rfl rfl).2
  · exact h.2.2.2.2.2.2.1 rfl
  · exact h.2.2.2.2.2.2.2.1
  · exact (h.2.2.2.2.2.2.2.2.2.2.1 (.str "http://x/1.png") [] rfl rfl).1

/-! ### Ingestion claims -/

theorem Val.eqStr_true (v : Val) (s : String) (h : v.eqStr s = true) :
    v = .str s := by
  cases v with
  | str t =>
    simp only [Val.eqStr, beq_iff_eq] at h
    rw [h]
  | num n => simp [Val.eqStr] at h
  | null => simp [Val.eqStr] at h
  | list l => simp [Val.eqStr] at h
  | dict d => simp [Val.eqStr] at h

/-- C5 (counterexample): the row of the spec test property, title
`"Sindh Board Math"` with no `Board` column at all, is ingested with board
`"General"`, not `"Sindh Board"`: when the column is absent, `row.get`
returns the default `"General"`, which is not the sentinel `"N/A"`, so the
keyword derivation never runs. -/
theorem ingest_board_counterexample :
    pyIn "Sindh"
      (ingestTitle [("Book Name", Val.str "Sindh Board Math")]) = true ∧
    Doc.get? (ingestRow [("Book Name", Val.str "Sindh Board Math")]
      "katib.pk" 0) "board" = some (.str "General") ∧
    Doc.get? (ingestRow [("Book Name", Val.str "Sindh Board Math")]
      "katib.pk" 0) "board" ≠ some (.str "Sindh Board") := by
  refine ⟨rfl, rfl, ?_⟩
  intro h
  have h2 : some (Val.str "General") = some (Val.str "Sindh Board") := h
  injection h2 with h3
  injection h3 with h4
  exact absurd h4 (by decide)

/-- C5 (amended): the board column of an ingested document.  The keyword
derivation (`"Sindh"` in title gives `"Sindh Board"`, else `"Punjab"` in
title gives `"Punjab Board"`) runs only when the `Board` cell is present
and holds the blank sentinel `"N/A"`; with the sentinel and no keyword the
sentinel itself is kept, and with the `Board` column absent the default
`"General"` is used regardless of the title. -/
theorem ingest_board_rules (row : Doc) (src : String) (now : Nat) :
    Doc.get? (ingestRow row src now) "board" =
      some (ingestBoard row (ingestTitle row)) ∧
    ingestBoard row (ingestTitle row) =
      (if (Doc.getD row "Board" (.str "General")).eqStr "N/A" then
        (if pyIn "Sindh" (ingestTitle row) then Val.str "Sindh Board"
         else if pyIn "Punjab" (ingestTitle row) then Val.str "Punjab Board"
         else Val.str "N/A")
       else Doc.getD row "Board" (.str "General")) ∧
    (Doc.get? row "Board" = none →
      Doc.get? (ingestRow row src now) "board" = some (.str "General")) := by
  refine ⟨rfl, ?_, ?_⟩
  · unfold ingestBoard
    by_cases heq : (Doc.getD row "Board" (.str "General")).eqStr "N/A" = true
    · have hb := Val.eqStr_true _ _ heq
      simp only [heq, if_true, hb]
    · simp only [Bool.not_eq_true] at heq
      simp only [heq, Bool.false_eq_true, if_false]
  · intro h
    have h1 : Doc.get? (ingestRow row src now) "board" =
        some (ingestBoard row (ingestTitle row)) := rfl
    have hb : Doc.getD row "Board" (.str "General") = .str "General" :=
      Doc.getD_of_none row _ _ h
    rw [h1]
    unfold ingestBoard
    rw [hb]
    simp [Val.eqStr]

/-- Witness for C5 (amended): a row with no `Board` column yields
`"General"` even though its title contains `"Sindh"`. -/
theorem ingest_board_rules_witness :
    Doc.get? (ingestRow [("Book Name", Val.str "Sindh Board Math")]
      "tariqbookstore.com" 0) "board" = some (.str "General") :=
  (ingest_board_rules [("Book Name", Val.str "Sindh Board Math")]
    "tariqbookstore.com" 0).2.2 rfl

/-- C9: a failure raised while processing one ingestion batch is caught
inside that batch, so the overall run always returns normally, a failing
batch leaves the store unchanged, and the remaining batches are processed
exactly as if the failing batch had not been there. -/
theorem ingestion_batch_isolation :
    (∀ (batches : List (Except PyErr (List Doc) × String)) (now : Nat)
      (store : List Doc), ∃ s, runAllIngestion batches now store = .ok s) ∧
    (∀ (e : PyErr) (src : String) (now : Nat) (store : List Doc),
      run_full_ingestion (.error e) src now store = .ok store) ∧
    (∀ (e : PyErr) (src : String)
      (rest : List (Except PyErr (List Doc) × String)) (now : Nat)
      (store : List Doc),
      runAllIngestion ((Except.error e, src) :: rest) now store =
        runAllIngestion rest now store) := by
  refine ⟨?_, ?_, ?_⟩
  · intro batches
    induction batches with
    | nil => exact fun now store => ⟨store, rfl⟩
    | cons b rest ih =>
      intro now store
      obtain ⟨read, src⟩ := b
      cases read with
      | error e => exact ih now store
      | ok rows =>
        exact ih now (store ++ rows.map fun r => ingestRow r src now)
  · intro e src now store
    rfl
  · intro e src rest now store
    rfl

/-! ### getById error folding -/

/-- C8: getById folds every failing input into the same NotFound outcome:
a malformed identifier and a well-formed identifier matching no stored
listing produce the identical 404 error value; no distinct parse-error
result is ever surfaced, since the whole handler body runs under
`except Exception`. -/
theorem get_book_not_found_uniform (books : Store) (bad good : String)
    (hbad : isValidObjectId bad = false)
    (hgood : isValidObjectId good = true)
    (habsent : findById books (pyLower good) = none) :
    get_book books bad = .error (.http 404 "Book not found") ∧
    get_book books good = .error (.http 404 "Book not found") := by
  constructor
  · have hp : parseObjectId bad = .error (.invalidId bad) := by
      unfold parseObjectId
      rw [hbad]
      rfl
    unfold get_book get_book_body
    rw [hp]
  · have hp : parseObjectId good = .ok (pyLower good) := by
      unfold parseObjectId
      rw [hgood]
      rfl
    have hb : get_book_body books good =
        .error (.http 404 "Book not found") := by
      unfold get_book_body
      rw [hp]
      simp [habsent]
    unfold get_book
    rw [hb]

/-- Witness for C8: a malformed id and an absent well-formed id yield the
same 404 on the seeded books collection. -/
theorem get_book_not_found_uniform_witness :
    get_book seedBooks "zz" = .error (.http 404 "Book not found") ∧
    get_book seedBooks "eeeeeeeeeeeeeeeeeeeeeeee" =
      .error (.http 404 "Book not found") :=
  get_book_not_found_uniform seedBooks "zz" "eeeeeeeeeeeeeeeeeeeeeeee"
    rfl rfl rfl

/-! ### Mutation authorization and creation -/

/-- C1 (code_bug evidence): on the seeded stores, the owner of the listing,
a non-admin identity produced by `verify_token`, receives neither
`Forbidden` nor success from update and delete: both raise
`KeyError("id")`, because `verify_token` returns the stored user document
whose key is `_id` while the ownership check reads `current_user["id"]`.
An admin identity short-circuits the check and succeeds regardless of
ownership. -/
theorem update_delete_key_error :
    (verify_token seedUsers 0
        (create_token "aaaaaaaaaaaaaaaaaaaaaaaa" "user" 0) = .ok ownerIdent ∧
      Doc.get? ownerIdent "role" = some (.str "user") ∧
      update_book seedBooks "bbbbbbbbbbbbbbbbbbbbbbbb" none none none none
        none none none none ownerIdent = .error (.keyError "id") ∧
      delete_book seedBooks "bbbbbbbbbbbbbbbbbbbbbbbb" ownerIdent =
        .error (.keyError "id")) ∧
    (verify_token seedUsers 0
        (create_token "cccccccccccccccccccccccc" "admin" 0) =
        .ok adminIdent ∧
      Doc.get? adminIdent "role" = some (.str "admin") ∧
      delete_book seedBooks "bbbbbbbbbbbbbbbbbbbbbbbb" adminIdent =
        .ok ([], "Book deleted successfully") ∧
      update_book seedBooks "bbbbbbbbbbbbbbbbbbbbbbbb" (some "New Title")
        none none none none none none none adminIdent =
        .ok ([("bbbbbbbbbbbbbbbbbbbbbbbb",
          [("title", .str "New Title"), ("price", .num 10),
           ("sellerId", .str "aaaaaaaaaaaaaaaaaaaaaaaa"),
           ("status", .str "active")])],
          [("title", .str "New Title"), ("price", .num 10),
           ("sellerId", .str "aaaaaaaaaaaaaaaaaaaaaaaa"),
           ("status", .str "active"),
           ("_id", .str "bbbbbbbbbbbbbbbbbbbbbbbb")])) :=
  ⟨⟨rfl, rfl, rfl, rfl⟩, ⟨rfl, rfl, rfl, rfl⟩⟩

/-- C2 (code_bug evidence): creation fails for every identity produced by
`verify_token`, owner and admin alike: building the listing document reads
`current_user["id"]`, which raises `KeyError("id")` because the verified
identity only carries `_id`; no listing is persisted and nothing is
returned. -/
theorem upload_book_key_error :
    (verify_token seedUsers 0
        (create_token "aaaaaaaaaaaaaaaaaaaaaaaa" "user" 0) = .ok ownerIdent ∧
      upload_book seedBooks "dddddddddddddddddddddddd" "Calculus" "Writer"
        25 "Math" "good" none none none ownerIdent 0 =
        .error (.keyError "id")) ∧
    (verify_token seedUsers 0
        (create_token "cccccccccccccccccccccccc" "admin" 0) =
        .ok adminIdent ∧
      upload_book seedBooks "dddddddddddddddddddddddd" "Calculus" "Writer"
        25 "Math" "good" none none none adminIdent 0 =
        .error (.keyError "id")) :=
  ⟨⟨rfl, rfl⟩, ⟨rfl, rfl⟩⟩

/-! ### Search price-range filtering -/

theorem normalizeAll_mem (l res : List Doc) (d : Doc)
    (h : normalizeAll l = .ok res) (hd : d ∈ res) :
    ∃ b ∈ l, normSearchDoc b = .ok d := by
  induction l generalizing res with
  | nil =>
    unfold normalizeAll at h
    simp only [Except.ok.injEq] at h
    subst h
    cases hd
  | cons b rest ih =>
    unfold normalizeAll at h
    split at h
    · exact Except.noConfusion h
    · rename_i b1 hb1
      split at h
      · exact Except.noConfusion h
      · rename_i rest1 hrest
        simp only [Except.ok.injEq] at h
        subst h
        rcases List.mem_cons.mp hd with h1 | h1
        · subst h1
          exact ⟨b, List.mem_cons_self _ _, hb1⟩
        · obtain ⟨b2, hmem, hb2⟩ := ih rest1 hrest h1
          exact ⟨b2, List.mem_cons_of_mem _ hmem, hb2⟩

theorem normSearchDoc_price_preserved (b d : Doc) (v : Val)
    (h : normSearchDoc b = .ok d) (hp : Doc.get? b "price" = some v) :
    Doc.get? d "price" = some v := by
  have hc : Doc.containsKey b "price" = true := by
    simp [Doc.containsKey, hp]
  unfold normSearchDoc at h
  have h6 : normPrice (normAuthor (normTitleSearch b)) =
      normAuthor (normTitleSearch b) :=
    normPrice_eq_self _ (by
      rw [normAuthor_containsKey_ne _ _ (by decide),
        normTitleSearch_containsKey_ne _ _ (by decide)]
      exact hc)
  rw [normImage_ok_get?_ne _ _ "price" h (by decide), h6,
    normAuthor_get?_ne _ "price" (by decide),
    normTitleSearch_get?_ne _ "price" (by decide)]
  exact hp

theorem matchesPrice_bounds (lo hi : Int) (d : Doc)
    (h : matchesPrice (some lo) (some hi) d = true) :
    ∃ p : Int, Doc.get? d "price" = some (.num p) ∧ lo ≤ p ∧ p ≤ hi := by
  simp only [matchesPrice] at h
  cases hq : Doc.get? d "price" with
  | none => rw [hq] at h; simp at h
  | some v =>
    rw [hq] at h
    cases v with
    | num p =>
      simp only [Bool.and_eq_true, decide_eq_true_eq] at h
      exact ⟨p, rfl, h.1, h.2⟩
    | str s => simp at h
    | null => simp at h
    | list l => simp at h
    | dict dd => simp at h

theorem matchesPrice_lower (lo : Int) (d : Doc)
    (h : matchesPrice (some lo) none d = true) :
    ∃ p : Int, Doc.get? d "price" = some (.num p) ∧ lo ≤ p := by
  simp only [matchesPrice] at h
  cases hq : Doc.get? d "price" with
  | none => rw [hq] at h; simp at h
  | some v =>
    rw [hq] at h
    cases v with
    | num p =>
      simp only [Bool.and_eq_true, decide_eq_true_eq] at h
      exact ⟨p, rfl, h.1⟩
    | str s => simp at h
    | null => simp at h
    | list l => simp at h
    | dict dd => simp at h

theorem get_books_mem (books : Store) (s c cond pr : Option String)
    (lim : Nat) (res : List Doc) (d : Doc)
    (h : get_books books s c cond pr lim = .ok res) (hd : d ∈ res) :
    ∃ b : String × Doc, b ∈ books ∧
      matchesQuery (buildQuery s c cond pr) b.2 = true ∧
      normSearchDoc (Doc.set b.2 "_id" (.str b.1)) = .ok d := by
  unfold get_books at h
  obtain ⟨b2, hmem, hb2⟩ := normalizeAll_mem _ res d h hd
  obtain ⟨b, hbmem, hbeq⟩ := List.mem_map.mp hmem
  subst hbeq
  have hbf : b ∈ books.filter
      fun x => matchesQuery (buildQuery s c cond pr) x.2 :=
    List.take_subset _ _ hbmem
  exact ⟨b, (List.mem_filter.mp hbf).1, (List.mem_filter.mp hbf).2, hb2⟩

theorem matchesQuery_price (q : BooksQuery) (b : Doc)
    (h : matchesQuery q b = true) : matchesPrice q.priceLo q.priceHi b = true := by
  simp only [matchesQuery, Bool.and_eq_true] at h
  exact h.2

theorem get_books_price_bounded (books : Store) (s c cond : Option String)
    (pr : String) (lo hi : Int) (lim : Nat) (res : List Doc) (d : Doc)
    (hq : priceBounds (some pr) = (some lo, some hi))
    (h : get_books books s c cond (some pr) lim = .ok res) (hd : d ∈ res) :
    ∃ p : Int, Doc.get? d "price" = some (.num p) ∧ lo ≤ p ∧ p ≤ hi := by
  obtain ⟨b, hbmem, hmatch, hnorm⟩ := get_books_mem books s c cond
    (some pr) lim res d h hd
  have hmp := matchesQuery_price _ _ hmatch
  have hlo : (buildQuery s c cond (some pr)).priceLo = some lo := by
    have h1 : (buildQuery s c cond (some pr)).priceLo =
        (priceBounds (some pr)).1 := rfl
    rw [h1, hq]
  have hhi : (buildQuery s c cond (some pr)).priceHi = some hi := by
    have h1 : (buildQuery s c cond (some pr)).priceHi =
        (priceBounds (some pr)).2 := rfl
    rw [h1, hq]
  rw [hlo, hhi] at hmp
  obtain ⟨p, hp, h1, h2⟩ := matchesPrice_bounds lo hi b.2 hmp
  have hp2 : Doc.get? (Doc.set b.2 "_id" (.str b.1)) "price" =
      some (.num p) := by
    rw [Doc.get?_set_ne _ _ _ _ (by decide)]
    exact hp
  exact ⟨p, normSearchDoc_price_preserved _ _ _ hnorm hp2, h1, h2⟩

theorem get_books_price_lower (books : Store) (s c cond : Option String)
    (pr : String) (lo : Int) (lim : Nat) (res : List Doc) (d : Doc)
    (hq : priceBounds (some pr) = (some lo, none))
    (h : get_books books s c cond (some pr) lim = .ok res) (hd : d ∈ res) :
    ∃ p : Int, Doc.get? d "price" = some (.num p) ∧ lo ≤ p := by
  obtain ⟨b, hbmem, hmatch, hnorm⟩ := get_books_mem books s c cond
    (some pr) lim res d h hd
  have hmp := matchesQuery_price _ _ hmatch
  have hlo : (buildQuery s c cond (some pr)).priceLo = some lo := by
    have h1 : (buildQuery s c cond (some pr)).priceLo =
        (priceBounds (some pr)).1 := rfl
    rw [h1, hq]
  have hhi : (buildQuery s c cond (some pr)).priceHi = none := by
    have h1 : (buildQuery s c cond (some pr)).priceHi =
        (priceBounds (some pr)).2 := rfl
    rw [h1, hq]
  rw [hlo, hhi] at hmp
  obtain ⟨p, hp, h1⟩ := matchesPrice_lower lo b.2 hmp
  have hp2 : Doc.get? (Doc.set b.2 "_id" (.str b.1)) "price" =
      some (.num p) := by
    rw [Doc.get?_set_ne _ _ _ _ (by decide)]
    exact hp
  exact ⟨p, normSearchDoc_price_preserved _ _ _ hnorm hp2, h1⟩

theorem priceBounds_other (pr : String) (h1 : pr ≠ "0-20")
    (h2 : pr ≠ "20-50") (h3 : pr ≠ "50-100") (h4 : pr ≠ "100+") :
    priceBounds (some pr) = (none, none) := by
  unfold priceBounds
  split
  · rename_i heq
    injection heq with heq
    exact absurd heq h1
  · rename_i heq
    injection heq with heq
    exact absurd heq h2
  · rename_i heq
    injection heq with heq
    exact absurd heq h3
  · rename_i heq
    injection heq with heq
    exact absurd heq h4
  · rfl

/-- C6: every listing returned by search under one of the four recognized
price ranges satisfies that inclusive bound on its (numeric) price field,
and every other `priceRange` value adds no price constraint to the query. -/
theorem search_price_range_bounds (books : Store)
    (s c cond : Option String) (lim : Nat) :
    (∀ res d, get_books books s c cond (some "0-20") lim = .ok res →
      d ∈ res →
      ∃ p : Int, Doc.get? d "price" = some (.num p) ∧ 0 ≤ p ∧ p ≤ 20) ∧
    (∀ res d, get_books books s c cond (some "20-50") lim = .ok res →
      d ∈ res →
      ∃ p : Int, Doc.get? d "price" = some (.num p) ∧ 20 ≤ p ∧ p ≤ 50) ∧
    (∀ res d, get_books books s c cond (some "50-100") lim = .ok res →
      d ∈ res →
      ∃ p : Int, Doc.get? d "price" = some (.num p) ∧ 50 ≤ p ∧ p ≤ 100) ∧
    (∀ res d, get_books books s c cond (some "100+") lim = .ok res →
      d ∈ res →
      ∃ p : Int, Doc.get? d "price" = some (.num p) ∧ 100 ≤ p) ∧
    (∀ pr : String, pr ≠ "0-20" → pr ≠ "20-50" → pr ≠ "50-100" →
      pr ≠ "100+" →
      (buildQuery s c cond (some pr)).priceLo = none ∧
      (buildQuery s c cond (some pr)).priceHi = none) := by
  refine ⟨?_, ?_, ?_, ?_, ?_⟩
  · intro res d h hd
    exact get_books_price_bounded books s c cond "0-20" 0 20 lim res d
      rfl h hd
  · intro res d h hd
    exact get_books_price_bounded books s c cond "20-50" 20 50 lim res d
      rfl h hd
  · intro res d h hd
    exact get_books_price_bounded books s c cond "50-100" 50 100 lim res d
      rfl h hd
  · intro res d h hd
    exact get_books_price_lower books s c cond "100+" 100 lim res d
      rfl h hd
  · intro pr h1 h2 h3 h4
    have hb := priceBounds_other pr h1 h2 h3 h4
    constructor
    · have he : (buildQuery s c cond (some pr)).priceLo =
          (priceBounds (some pr)).1 := rfl
      rw [he, hb]
    · have he : (buildQuery s c cond (some pr)).priceHi =
          (priceBounds (some pr)).2 := rfl
      rw [he, hb]

/-- Witness for C6: the listing priced 30 returned under `20-50` has its
price inside the inclusive bound. -/
theorem search_price_range_bounds_witness :
    ∃ p : Int, Doc.get? priceResultDoc "price" = some (.num p) ∧
      20 ≤ p ∧ p ≤ 50 :=
  (search_price_range_bounds priceBooks none none none 50).2.1
    [priceResultDoc] priceResultDoc rfl (List.mem_singleton.mpr rfl)

/-! ### Token issue and verification -/

/-- Successful verification: a token signed with the module secret, not yet
expired, whose subject resolves in the users collection, yields the stored
user document with a stringified `_id`. -/
theorem verify_token_ok (users : Store) (now : Nat) (p : TokenPayload)
    (u : String × Doc) (hexp : now < p.exp)
    (hoid : isValidObjectId p.sub = true)
    (hfind : findById users (pyLower p.sub) = some u) :
    verify_token users now (jwtEncode SECRET_KEY p) =
      .ok (Doc.set u.2 "_id" (.str u.1)) := by
  have hdec : jwtDecode SECRET_KEY now (jwtEncode SECRET_KEY p) = .ok p := by
    unfold jwtDecode jwtEncode
    have h1 : ¬(p.exp ≤ now) := by omega
    simp [h1]
  have hpars : parseObjectId p.sub = .ok (pyLower p.sub) := by
    unfold parseObjectId
    simp [hoid]
  unfold verify_token
  rw [hdec]
  simp [hpars, hfind]

theorem findById_append_right (users : Store) (freshId : String) (doc : Doc)
    (hfresh : ∀ u ∈ users, u.1 ≠ freshId) :
    findById (users ++ [(freshId, doc)]) freshId = some (freshId, doc) := by
  induction users with
  | nil => simp [findById]
  | cons u rest ih =>
    have hu : u.1 ≠ freshId := hfresh u (List.mem_cons_self _ _)
    rw [List.cons_append]
    unfold findById
    simp only [hu, if_false]
    exact ih fun v hv => hfresh v (List.mem_cons_of_mem _ hv)

theorem findById_of_mem_nodup (users : Store) (u : String × Doc)
    (hmem : u ∈ users) (hnd : (users.map Prod.fst).Nodup) :
    findById users u.1 = some u := by
  induction users with
  | nil => cases hmem
  | cons v rest ih =>
    rcases List.mem_cons.mp hmem with h | h
    · subst h
      unfold findById
      simp
    · have hnotin : v.1 ∉ rest.map Prod.fst :=
        (List.nodup_cons.mp (by simpa using hnd)).1
      have hv : v.1 ≠ u.1 := by
        intro he
        exact hnotin (he ▸ List.mem_map_of_mem Prod.fst h)
      unfold findById
      simp only [hv, if_false]
      exact ih h (List.nodup_cons.mp (by simpa using hnd)).2

theorem findByEmail_mem (users : Store) (email : String) (u : String × Doc)
    (h : findByEmail users email = some u) :
    u ∈ users ∧ Doc.get? u.2 "email" = some (.str email) := by
  induction users with
  | nil => simp [findByEmail] at h
  | cons v rest ih =>
    unfold findByEmail at h
    split at h
    · rename_i s heq
      split at h
      · rename_i hs
        simp only [Option.some.injEq] at h
        subst h
        subst hs
        exact ⟨List.mem_cons_self _ _, heq⟩
      · obtain ⟨hmem, he⟩ := ih h
        exact ⟨List.mem_cons_of_mem _ hmem, he⟩
    · obtain ⟨hmem, he⟩ := ih h
      exact ⟨List.mem_cons_of_mem _ hmem, he⟩

/-- C7: a token issued by `register` or by `login` immediately verifies,
against the same store state and before expiry, to an identity whose
subject id and role equal the id and role that were used to issue the
token. -/
theorem token_round_trip (users : Store) (now : Nat) :
    (∀ freshId name email password role users2 tok view,
      isValidObjectId freshId = true → pyLower freshId = freshId →
      (∀ u ∈ users, u.1 ≠ freshId) →
      register users freshId name email password role now =
        .ok (users2, tok, view) →
      tok.payload.sub = freshId ∧ tok.payload.role = role ∧
      ∃ ident, verify_token users2 now tok = .ok ident ∧
        Doc.get? ident "_id" = some (.str freshId) ∧
        Doc.get? ident "role" = some (.str role)) ∧
    (∀ email password role u nameV,
      findByEmail users email = some u →
      Doc.get? u.2 "password" = some (.str (bcryptHash password)) →
      Doc.get? u.2 "role" = some (.str role) →
      Doc.get? u.2 "name" = some nameV →
      isValidObjectId u.1 = true → pyLower u.1 = u.1 →
      (users.map Prod.fst).Nodup →
      login users email password role now =
        .ok (create_token u.1 role now,
          [("id", .str u.1), ("name", nameV), ("email", .str email),
           ("role", .str role)]) ∧
      (create_token u.1 role now).payload.sub = u.1 ∧
      (create_token u.1 role now).payload.role = role ∧
      ∃ ident, verify_token users now (create_token u.1 role now) =
        .ok ident ∧
        Doc.get? ident "_id" = some (.str u.1) ∧
        Doc.get? ident "role" = some (.str role)) := by
  constructor
  · intro freshId name email password role users2 tok view hoid hcanon
      hfresh hreg
    unfold register at hreg
    split at hreg
    · exact Except.noConfusion hreg
    · split at hreg
      · exact Except.noConfusion hreg
      · simp only [Except.ok.injEq, Prod.mk.injEq] at hreg
        obtain ⟨h1, h2, h3⟩ := hreg
        subst h1
        subst h2
        subst h3
        refine ⟨rfl, rfl, ?_⟩
        have hsev : sevenDays = 604800 := rfl
        have hfind := findById_append_right users freshId
          [("name", .str name), ("email", .str email),
           ("password", .str (bcryptHash password)), ("role", .str role),
           ("created_at", .num now)] hfresh
        refine ⟨_, verify_token_ok _ now ⟨freshId, role, now + sevenDays⟩
          _ (by show now < now + sevenDays; rw [hsev]; omega) hoid
          (by rw [hcanon]; exact hfind), ?_, ?_⟩
        · exact Doc.get?_set_self _ _ _
        · rw [Doc.get?_set_ne _ _ _ _ (by decide)]
          rfl
  · intro email password role u nameV hfe hpw hrole hname hoid hcanon hnd
    obtain ⟨hmem, hemail⟩ := findByEmail_mem users email u hfe
    have hgi : Doc.getItem u.2 "password" =
        .ok (.str (bcryptHash password)) := by
      simp [Doc.getItem, hpw]
    have hch : bcryptCheck password (bcryptHash password) = true := by
      simp [bcryptCheck]
    have hgd : Doc.getD u.2 "role" .null = .str role :=
      Doc.getD_of_get? _ _ _ _ hrole
    have hgr : Doc.getItem u.2 "role" = .ok (.str role) := by
      simp [Doc.getItem, hrole]
    have hgn : Doc.getItem u.2 "name" = .ok nameV := by
      simp [Doc.getItem, hname]
    have hge : Doc.getItem u.2 "email" = .ok (.str email) := by
      simp [Doc.getItem, hemail]
    have hlog : login users email password role now =
        .ok (create_token u.1 role now,
          [("id", .str u.1), ("name", nameV), ("email", .str email),
           ("role", .str role)]) := by
      unfold login
      rw [hfe]
      simp [hgi, hch, hgd, hgr, hgn, hge, Val.neStr, pyStr]
    refine ⟨hlog, rfl, rfl, ?_⟩
    have hfind : findById users (pyLower u.1) = some u := by
      rw [hcanon]
      exact findById_of_mem_nodup users u hmem hnd
    have hsev : sevenDays = 604800 := rfl
    refine ⟨_, verify_token_ok users now ⟨u.1, role, now + sevenDays⟩ u
      (by show now < now + sevenDays; rw [hsev]; omega) hoid hfind,
      Doc.get?_set_self _ _ _, ?_⟩
    rw [Doc.get?_set_ne _ _ _ _ (by decide)]
    exact hrole

/-- Witness for C7: registering a user in an empty store and verifying the
returned token immediately yields the same subject id and role. -/
theorem token_round_trip_witness :
    (create_token "abababababababababababab" "user" 0).payload.sub =
      "abababababababababababab" ∧
    (create_token "abababababababababababab" "user" 0).payload.role =
      "user" ∧
    ∃ ident, verify_token regUsers 0
      (create_token "abababababababababababab" "user" 0) = .ok ident ∧
      Doc.get? ident "_id" = some (.str "abababababababababababab") ∧
      Doc.get? ident "role" = some (.str "user") :=
  (token_round_trip [] 0).1 "abababababababababababab" "N" "n@x.com" "pw"
    "user" regUsers (create_token "abababababababababababab" "user" 0)
    regView rfl rfl (by simp) rfl

/-- C10: verification reads only the subject id of the token payload and
returns the user document currently stored for it: two tokens differing
only in their embedded role claim verify to the same identity, whose name,
email and role are the stored ones. -/
theorem verify_token_uses_store_role (users : Store) (now : Nat)
    (sub roleClaim1 roleClaim2 : String) (tokenExp : Nat)
    (u : String × Doc) (hexp : now < tokenExp)
    (hoid : isValidObjectId sub = true)
    (hfind : findById users (pyLower sub) = some u) :
    verify_token users now
      (jwtEncode SECRET_KEY ⟨sub, roleClaim1, tokenExp⟩) =
      .ok (Doc.set u.2 "_id" (.str u.1)) ∧
    verify_token users now
      (jwtEncode SECRET_KEY ⟨sub, roleClaim2, tokenExp⟩) =
      .ok (Doc.set u.2 "_id" (.str u.1)) ∧
    Doc.get? (Doc.set u.2 "_id" (.str u.1)) "name" = Doc.get? u.2 "name" ∧
    Doc.get? (Doc.set u.2 "_id" (.str u.1)) "email" =
      Doc.get? u.2 "email" ∧
    Doc.get? (Doc.set u.2 "_id" (.str u.1)) "role" = Doc.get? u.2 "role" :=
  ⟨verify_token_ok users now ⟨sub, roleClaim1, tokenExp⟩ u hexp hoid hfind,
   verify_token_ok users now ⟨sub, roleClaim2, tokenExp⟩ u hexp hoid hfind,
   Doc.get?_set_ne _ _ _ _ (by decide),
   Doc.get?_set_ne _ _ _ _ (by decide),
   Doc.get?_set_ne _ _ _ _ (by decide)⟩

/-- Witness for C10: a token whose role claim says `admin` (or anything
else) still verifies to the stored non-admin owner identity. -/
theorem verify_token_uses_store_role_witness :
    verify_token seedUsers 0
      (jwtEncode SECRET_KEY ⟨"aaaaaaaaaaaaaaaaaaaaaaaa", "admin", 100⟩) =
      .ok ownerIdent ∧
    verify_token seedUsers 0
      (jwtEncode SECRET_KEY ⟨"aaaaaaaaaaaaaaaaaaaaaaaa", "hacker", 100⟩) =
      .ok ownerIdent ∧
    Doc.get? ownerIdent "role" = some (.str "user") := by
  have h := verify_token_uses_store_role seedUsers 0
    "aaaaaaaaaaaaaaaaaaaaaaaa" "admin" "hacker" 100
    ("aaaaaaaaaaaaaaaaaaaaaaaa", ownerUserDoc) (by omega) rfl rfl
  exact ⟨h.1, h.2.1, rfl⟩

end Bookstore
